import Mathlib

/-!
Verification of the kosatnkn/adapters MySQL database adapter.

The Go source (`src/mysql/Adapter.go` and the unnamed parts) is shallowly
embedded below.  Strings are modelled as lists of characters with Go's
byte-level operations restricted to ASCII (all string constants the adapter
inspects are ASCII).  A Go panic (out-of-bounds slice, failed type
assertion) is modelled as `none` in an `Option`-valued result; an error
return is `Except.error`.  The backend driver (`database/sql`) is modelled
as an oracle structure recording what each driver call would return, and
each adapter entry point additionally returns the list of driver calls it
issued.
-/

/-- The ASCII white-space characters trimmed by `strings.TrimSpace`. -/
def isSpaceGo (c : Char) : Bool :=
  c = ' ' || c = '\t' || c = '\n' || c = '\x0b' || c = '\x0c' || c = '\r'

/-- Go `strings.TrimSpace`: drop white space from both ends. -/
def goTrimSpace (l : List Char) : List Char :=
  ((l.dropWhile isSpaceGo).reverse.dropWhile isSpaceGo).reverse

/-- A word character in Go's regexp `\w` class: `[0-9A-Za-z_]`. -/
def isWordChar (c : Char) : Bool :=
  c.isAlphanum || c = '_'

/-- Go's slice `s[:n]`, which panics (`none`) when `n > len(s)`. -/
def goSliceTo (l : List Char) (n : Nat) : Option (List Char) :=
  if n ≤ l.length then some (l.take n) else none

/-- Position at which the regular expression `\?\w+` matches: a `?` marker
followed by at least one word character. -/
def isTokenStart (c : Char) (rest : List Char) : Bool :=
  c = '?' && !(rest.takeWhile isWordChar).isEmpty

/-- One left-to-right scan performing both `FindAllString` and
`ReplaceAllString` for the pattern `\?\w+` with replacement `?`:
returns the rewritten text and the parameter names (marker stripped)
in order of appearance.  The `fuel` argument only makes the recursion
structural; it is initialized to the length of the text, which suffices
(every step consumes at least one character). -/
def scanQueryFuel : Nat → List Char → List Char × List String
  | 0, l => (l, [])
  | _ + 1, [] => ([], [])
  | fuel + 1, c :: rest =>
    if isTokenStart c rest then
      let res := scanQueryFuel fuel (rest.dropWhile isWordChar)
      ('?' :: res.1, String.mk (rest.takeWhile isWordChar) :: res.2)
    else
      let res := scanQueryFuel fuel rest
      (c :: res.1, res.2)

/-- The translator scan at full fuel. -/
def scanQuery (l : List Char) : List Char × List String :=
  scanQueryFuel l.length l

/-- Model of `convertQuery` from `src/mysql/Adapter.go`: trim the query, extract the
named parameters matched by `\?\w+` in order, and replace each match with
the positional placeholder `?`. -/
def convertQuery (q : String) : String × List String :=
  let res := scanQuery (goTrimSpace q.toList)
  (String.mk res.1, res.2)

/-- Whether the text contains at least one named-parameter token. -/
def hasNamedToken : List Char → Bool
  | [] => false
  | c :: rest => isTokenStart c rest || hasNamedToken rest

/-- Modelled from the spec (section 4.1), for comparison with
`convertQuery`: the names of every maximal run of the marker followed by
identifier characters, in order of appearance, marker stripped, duplicates
preserved.  Fuel as in `scanQueryFuel`. -/
def specNamedTokensFuel : Nat → List Char → List String
  | 0, _ => []
  | _ + 1, [] => []
  | fuel + 1, c :: rest =>
    if isTokenStart c rest then
      String.mk (rest.takeWhile isWordChar) :: specNamedTokensFuel fuel (rest.dropWhile isWordChar)
    else
      specNamedTokensFuel fuel rest

/-- The spec-side token list at full fuel. -/
def specNamedTokens (l : List Char) : List String :=
  specNamedTokensFuel l.length l

/-- Number of `?` characters in a text. -/
def countPlaceholders (s : String) : Nat :=
  s.toList.countP (fun c => c = '?')

/-- Number of `?` characters that do not introduce a named-parameter token
(no word character follows them); such markers are left in place by the
translator. -/
def bareMarkerCount : List Char → Nat
  | [] => 0
  | c :: rest =>
    (if c = '?' && (rest.takeWhile isWordChar).isEmpty then 1 else 0) + bareMarkerCount rest

-- sanity examples for the translator
example : convertQuery " SELECT * FROM t WHERE a = ?a AND b = ?b " =
    ("SELECT * FROM t WHERE a = ? AND b = ?", ["a", "b"]) := by decide
example : convertQuery "??a" = ("??", ["a"]) := by decide
example : convertQuery "a ?" = ("a ?", []) := by decide

/-- An opaque-to-the-adapter scalar value held in a `map[string]interface` -/
inductive GoVal where
  | vint (n : Int)
  | vstr (s : String)
  | vnull
  deriving DecidableEq, Repr

/-- A result row: a name-keyed record (`map[string]interface` in Go). -/
abbrev Row := List (String × GoVal)

/-- The error text of `fmt.Errorf("mysql-adapter: parameter '%s' is missing", param)`. -/
def missingParamMsg (name : String) : String :=
  "mysql-adapter: parameter \x27" ++ name ++ "\x27 is missing"

/-- Model of `reorderParameters` from `src/mysql/Adapter.go`: walk the ordered name
list, look each name up in the mapping, error out at the first name that is
absent, otherwise append its value. -/
def reorderParameters (params : String → Option GoVal) :
    List String → Except String (List GoVal)
  | [] => Except.ok []
  | p :: rest =>
    match params p with
    | none => Except.error (missingParamMsg p)
    | some v =>
      match reorderParameters params rest with
      | Except.error e => Except.error e
      | Except.ok vs => Except.ok (v :: vs)

/-- The driver calls an adapter entry point can issue. -/
inductive BCall where
  | prepare
  | stmtQuery
  | stmtExec
  deriving DecidableEq, Repr

/-- Oracle for the `database/sql` driver: what each call would return.
Outcomes for QueryBulk executions are indexed by iteration; receipts whose
errors QueryBulk discards (`lastID, _ = result.LastInsertId()`) are plain
values. -/
structure Backend where
  prepare : Except String Unit
  stmtQuery : Except String (List Row)
  stmtExec : Except String Unit
  lastInsertId : Except String Int
  rowsAffected : Except String Int
  bulkExec : Nat → Except String Unit
  bulkLastId : Nat → Int
  bulkAff : Nat → Int

/-- Model of `formatResultSet`: the single synthetic row built from a mutation
receipt. -/
def formatResultSet (id aff : Int) : List Row :=
  [[("affected_rows", GoVal.vint aff), ("last_insert_id", GoVal.vint id)]]

/-- Model of `prepareDataSet`: the cursor-to-row decoding is performed by the driver
model (the `Backend.stmtQuery` oracle already yields decoded rows, and a
scan failure is folded into its error case), so here the row list passes
through; a cursor with zero rows yields `[]` with no error. -/
def prepareDataSet (rows : List Row) : List Row := rows

/-- Lower-cased Go slice `strings.ToLower(s[:n])`, `none` on panic. -/
def lowerSlice (s : String) (n : Nat) : Option String :=
  (goSliceTo s.toList n).map (fun l => String.mk (l.map Char.toLower))

/-- Model of `Query` from `src/mysql/Adapter.go`: translate, bind, prepare, then
classify by the first character of the translated query
(`strings.ToLower(convertedQuery[:1]) == "s"`): query path for `s`,
exec path (with checked receipts, `prepareResultSet`) otherwise.
Returns the result (`none` models the panic of an out-of-bounds slice)
and the list of driver calls issued. -/
def Query (bk : Backend) (q : String) (params : String → Option GoVal) :
    Option (Except String (List Row)) × List BCall :=
  let conv := convertQuery q
  match reorderParameters params conv.2 with
  | Except.error e => (some (Except.error e), [])
  | Except.ok _ =>
    match bk.prepare with
    | Except.error e => (some (Except.error e), [BCall.prepare])
    | Except.ok _ =>
      match lowerSlice conv.1 1 with
      | none => (none, [BCall.prepare])
      | some c1 =>
        if c1 = "s" then
          match bk.stmtQuery with
          | Except.error e => (some (Except.error e), [BCall.prepare, BCall.stmtQuery])
          | Except.ok rows =>
            (some (Except.ok (prepareDataSet rows)), [BCall.prepare, BCall.stmtQuery])
        else
          match bk.stmtExec with
          | Except.error e => (some (Except.error e), [BCall.prepare, BCall.stmtExec])
          | Except.ok _ =>
            match bk.lastInsertId with
            | Except.error e => (some (Except.error e), [BCall.prepare, BCall.stmtExec])
            | Except.ok id =>
              match bk.rowsAffected with
              | Except.error e => (some (Except.error e), [BCall.prepare, BCall.stmtExec])
              | Except.ok aff =>
                (some (Except.ok (formatResultSet id aff)), [BCall.prepare, BCall.stmtExec])

/-- Two's-complement wrap-around of Go's `int64` addition. -/
def wrap64 (n : Int) : Int :=
  (n + 2 ^ 63) % 2 ^ 64 - 2 ^ 63

/-- The value fits in an `int64`. -/
def inRange64 (n : Int) : Prop :=
  -(2 ^ 63) ≤ n ∧ n < 2 ^ 63

/-- The error text QueryBulk returns for a select statement. -/
def selectNotAllowedMsg : String :=
  "mysql-adapter: select queries are not allowed. use Query() instead"

/-- The `for _, pms := range params` loop of `QueryBulk`: bind, execute,
overwrite `lastID`, accumulate `affRows` (with `int64` wrap-around), and
abort the whole batch on the first bind or execution failure. -/
def bulkLoop (bk : Backend) (phs : List String) :
    List (String → Option GoVal) → Nat → Int → Int → List BCall →
    Option (Except String (List Row)) × List BCall
  | [], _, lastID, affRows, log =>
    (some (Except.ok (formatResultSet lastID affRows)), log)
  | pms :: rest, i, _, affRows, log =>
    match reorderParameters pms phs with
    | Except.error e => (some (Except.error e), log)
    | Except.ok _ =>
      match bk.bulkExec i with
      | Except.error e => (some (Except.error e), log ++ [BCall.stmtExec])
      | Except.ok _ =>
        bulkLoop bk phs rest (i + 1) (bk.bulkLastId i)
          (wrap64 (affRows + bk.bulkAff i)) (log ++ [BCall.stmtExec])

/-- Model of `QueryBulk` from `src/mysql/Adapter.go`: translate, reject when
`strings.ToLower(convertedQuery[:6]) == "select"` (panicking via the
unchecked slice when the translated query is shorter than 6 characters),
prepare once, then run `bulkLoop` over the parameter mappings. -/
def QueryBulk (bk : Backend) (q : String) (paramsList : List (String → Option GoVal)) :
    Option (Except String (List Row)) × List BCall :=
  let conv := convertQuery q
  match lowerSlice conv.1 6 with
  | none => (none, [])
  | some c6 =>
    if c6 = "select" then
      (some (Except.error selectNotAllowedMsg), [])
    else
      match bk.prepare with
      | Except.error e => (some (Except.error e), [BCall.prepare])
      | Except.ok _ => bulkLoop bk conv.2 paramsList 0 0 0 [BCall.prepare]

/-- An observable transaction-control action against the backend.  A
commit/rollback records whether it took effect (the transaction was still
open) or failed because the transaction was already finalized — an outcome
`WrapInTx` deliberately discards. -/
inductive TxEvent where
  | begun (id : Nat)
  | commit (id : Nat) (effective : Bool)
  | rollback (id : Nat) (effective : Bool)
  deriving DecidableEq, Repr

/-- Backend transaction state: the next fresh transaction id, the ids of
the transactions still open, and the trace of control actions issued. -/
structure TxState where
  nextId : Nat
  openTxs : List Nat
  events : List TxEvent
  deriving DecidableEq, Repr

/-- The initial backend transaction state. -/
def txs0 : TxState := ⟨0, [], []⟩

/-- Model of `tx.Commit()`: effective only when the transaction is still open;
either way the attempt is recorded and the transaction counts as closed
afterwards. -/
def txCommit (id : Nat) (s : TxState) : TxState :=
  { s with
    openTxs := s.openTxs.erase id
    events := s.events ++ [TxEvent.commit id (s.openTxs.contains id)] }

/-- Model of `tx.Rollback()`: effective only when the transaction is still open. -/
def txRollback (id : Nat) (s : TxState) : TxState :=
  { s with
    openTxs := s.openTxs.erase id
    events := s.events ++ [TxEvent.rollback id (s.openTxs.contains id)] }

/-- Model of `a.pool.Begin()` when the pool is healthy: opens a fresh transaction. -/
def poolBegin (s : TxState) : Except String (Nat × TxState) :=
  Except.ok (s.nextId,
    { nextId := s.nextId + 1
      openTxs := s.openTxs ++ [s.nextId]
      events := s.events ++ [TxEvent.begun s.nextId] })

/-- A `Begin` that fails with error `e` (for example, lost connectivity). -/
def failBegin (e : String) : TxState → Except String (Nat × TxState) :=
  fun _ => Except.error e

/-- Model of `attachTx` from `src/mysql/Adapter.go`: if the context already carries
a transaction, reuse the context unchanged; otherwise begin a new
transaction and bind it.  The context is modelled as the optional bound
transaction id (the only binding the adapter reads). -/
def attachTx (beginTx : TxState → Except String (Nat × TxState))
    (ctx : Option Nat) (s : TxState) : Except String (Option Nat × TxState) :=
  match ctx with
  | some _ => Except.ok (ctx, s)
  | none =>
    match beginTx s with
    | Except.error e => Except.error e
    | Except.ok (id, s1) => Except.ok (some id, s1)

/-- Model of `WrapInTx` from `src/mysql/Adapter.go`: attach (or reuse) a
transaction, run `fn` with the derived context, then unconditionally issue
`tx.Rollback()` on failure or `tx.Commit()` on success, discarding the
outcome of that call.  `none` models a panic: the type assertion
`ctx.Value(internal.TxKey).(*sql.Tx)` failing, or a panic escaping `fn`. -/
def wrapInTx {α : Type} (beginTx : TxState → Except String (Nat × TxState))
    (ctx : Option Nat)
    (fn : Option Nat → TxState → Option (Except String α × TxState))
    (s : TxState) : Option (Except String α × TxState) :=
  match attachTx beginTx ctx s with
  | Except.error e => some (Except.error e, s)
  | Except.ok (ctx1, s1) =>
    match ctx1 with
    | none => none
    | some tx =>
      match fn ctx1 s1 with
      | none => none
      | some (res, s2) =>
        match res with
        | Except.error e => some (Except.error e, txRollback tx s2)
        | Except.ok v => some (Except.ok v, txCommit tx s2)

/-- A leaf unit of work that issues no transaction-control action of its
own and returns `r`. -/
def leafWith (r : Except String Unit) :
    Option Nat → TxState → Option (Except String Unit × TxState) :=
  fun _ s => some (r, s)

/-- The nested scenario of the spec: `Wrap(ctx, f1)` where `f1` calls
`Wrap` again with the context handed to it, around a leaf returning `r`,
started with no transaction bound. -/
def nestedRun (r : Except String Unit) : Option (Except String Unit × TxState) :=
  wrapInTx poolBegin none
    (fun ctx s => wrapInTx poolBegin ctx (leafWith r) s) txs0

/-- The transaction-control trace of a run (empty if the run panicked). -/
def runEvents : Option (Except String Unit × TxState) → List TxEvent
  | some (_, s) => s.events
  | none => []

/-- The finalize action `WrapInTx` issues for outcome `r`. -/
def finEvent (r : Except String Unit) (id : Nat) (effective : Bool) : TxEvent :=
  match r with
  | Except.ok _ => TxEvent.commit id effective
  | Except.error _ => TxEvent.rollback id effective

/-- Is the event a begun-transaction event? -/
def isBeginEv : TxEvent → Bool
  | TxEvent.begun _ => true
  | _ => false

/-- Is the event a commit or rollback attempt? -/
def isFinEv : TxEvent → Bool
  | TxEvent.commit _ _ => true
  | TxEvent.rollback _ _ => true
  | _ => false

/-- Is the event a commit or rollback attempt that took effect? -/
def isEffFinEv : TxEvent → Bool
  | TxEvent.commit _ e => e
  | TxEvent.rollback _ e => e
  | _ => false

-- sanity example for the nested transaction scenario
example : runEvents (nestedRun (Except.ok ())) =
    [TxEvent.begun 0, TxEvent.commit 0 true, TxEvent.commit 0 false] := by decide

/-- Concrete healthy backend used in witnesses and counterexamples. -/
def bkOk : Backend :=
  { prepare := Except.ok ()
    stmtQuery := Except.ok []
    stmtExec := Except.ok ()
    lastInsertId := Except.ok 1
    rowsAffected := Except.ok 1
    bulkExec := fun _ => Except.ok ()
    bulkLastId := fun i => Int.ofNat i + 5
    bulkAff := fun _ => 2 }

/-- The empty parameter mapping. -/
def noParams : String → Option GoVal := fun _ => none

/-- A mapping binding the names `a` and `b`. -/
def paramsAB : String → Option GoVal := fun n =>
  if n = "a" then some (GoVal.vint 1)
  else if n = "b" then some (GoVal.vint 2)
  else none

/-- The first non-whitespace token of a query text. -/
def firstTokenOf (s : String) : String :=
  String.mk ((goTrimSpace s.toList).takeWhile (fun c => !(isSpaceGo c)))

lemma length_dropWhile_le_char (p : Char → Bool) (l : List Char) :
    (l.dropWhile p).length ≤ l.length := by
  induction l with
  | nil => simp [List.dropWhile]
  | cons c rest ih =>
    rw [List.dropWhile_cons]
    split
    · exact Nat.le_succ_of_le ih
    · exact Nat.le_refl _

lemma scanQueryFuel_no_tokens (fuel : Nat) (l : List Char)
    (hfuel : l.length ≤ fuel) (h : hasNamedToken l = false) :
    scanQueryFuel fuel l = (l, []) := by
  induction fuel generalizing l with
  | zero =>
    obtain rfl := List.length_eq_zero.mp (Nat.le_zero.mp hfuel)
    rfl
  | succ fuel ih =>
    cases l with
    | nil => rfl
    | cons c rest =>
      simp only [hasNamedToken, Bool.or_eq_false_iff] at h
      simp [scanQueryFuel, h.1, ih rest (Nat.le_of_succ_le_succ hfuel) h.2]

lemma scanQueryFuel_tokens_eq_spec (fuel : Nat) (l : List Char)
    (hfuel : l.length ≤ fuel) :
    (scanQueryFuel fuel l).2 = specNamedTokensFuel fuel l := by
  induction fuel generalizing l with
  | zero => rfl
  | succ fuel ih =>
    cases l with
    | nil => rfl
    | cons c rest =>
      simp only [scanQueryFuel, specNamedTokensFuel]
      split
      · rw [ih (rest.dropWhile isWordChar)
          (Nat.le_trans (length_dropWhile_le_char _ _) (Nat.le_of_succ_le_succ hfuel))]
      · rw [ih rest (Nat.le_of_succ_le_succ hfuel)]

lemma scanQueryFuel_length_le (fuel : Nat) (l : List Char)
    (hfuel : l.length ≤ fuel) :
    (scanQueryFuel fuel l).1.length ≤ l.length := by
  induction fuel generalizing l with
  | zero => exact Nat.le_refl _
  | succ fuel ih =>
    cases l with
    | nil => exact Nat.le_refl _
    | cons c rest =>
      simp only [scanQueryFuel]
      split
      · simp only [List.length_cons]
        exact Nat.succ_le_succ (Nat.le_trans
          (ih (rest.dropWhile isWordChar)
            (Nat.le_trans (length_dropWhile_le_char _ _) (Nat.le_of_succ_le_succ hfuel)))
          (length_dropWhile_le_char _ _))
      · simp only [List.length_cons]
        exact Nat.succ_le_succ (ih rest (Nat.le_of_succ_le_succ hfuel))

lemma bareMarkerCount_dropWhile (l : List Char) :
    bareMarkerCount (l.dropWhile isWordChar) = bareMarkerCount l := by
  induction l with
  | nil => rfl
  | cons c rest ih =>
    rw [List.dropWhile_cons]
    split
    · rename_i hw
      rw [ih]
      have hc : c ≠ '?' := by
        intro h
        rw [h] at hw
        exact absurd hw (by decide)
      simp [bareMarkerCount, hc]
    · rfl

lemma isTokenStart_iff (c : Char) (rest : List Char) :
    isTokenStart c rest = true ↔ c = '?' ∧ (rest.takeWhile isWordChar).isEmpty = false := by
  simp [isTokenStart]

lemma scanQueryFuel_placeholder_count (fuel : Nat) (l : List Char)
    (hfuel : l.length ≤ fuel) :
    (scanQueryFuel fuel l).1.countP (fun c => c = '?') =
      (scanQueryFuel fuel l).2.length + bareMarkerCount l := by
  induction fuel generalizing l with
  | zero =>
    obtain rfl := List.length_eq_zero.mp (Nat.le_zero.mp hfuel)
    rfl
  | succ fuel ih =>
    cases l with
    | nil => rfl
    | cons c rest =>
      simp only [scanQueryFuel]
      split
      · rename_i ht
        obtain ⟨hc, hemp⟩ := (isTokenStart_iff c rest).mp ht
        have hrec := ih (rest.dropWhile isWordChar)
          (Nat.le_trans (length_dropWhile_le_char _ _) (Nat.le_of_succ_le_succ hfuel))
        subst hc
        simp only [List.countP_cons, List.length_cons, bareMarkerCount, hrec,
          bareMarkerCount_dropWhile, hemp]
        simp
        omega
      · rename_i ht
        have hrec := ih rest (Nat.le_of_succ_le_succ hfuel)
        by_cases hc : c = '?'
        · have hemp : (rest.takeWhile isWordChar).isEmpty = true := by
            by_contra hne
            exact ht ((isTokenStart_iff c rest).mpr ⟨hc, Bool.not_eq_true _ ▸ hne⟩)
          subst hc
          simp [List.countP_cons, bareMarkerCount, hemp, hrec]
          omega
        · simp [List.countP_cons, bareMarkerCount, hc, hrec]

lemma reorderParameters_ok (params : String → Option GoVal) (names : List String)
    (h : ∀ n ∈ names, (params n).isSome) :
    ∃ vs, reorderParameters params names = Except.ok vs ∧
      vs.length = names.length ∧
      ∀ i : Nat, vs[i]? = (names[i]?).bind params := by
  induction names with
  | nil =>
    refine ⟨[], rfl, rfl, fun i => ?_⟩
    simp
  | cons p rest ih =>
    obtain ⟨v, hv⟩ := Option.isSome_iff_exists.mp (h p (List.mem_cons_self p rest))
    obtain ⟨vs, hok, hlen, hidx⟩ := ih (fun n hn => h n (List.mem_cons_of_mem p hn))
    refine ⟨v :: vs, ?_, ?_, fun i => ?_⟩
    · simp only [reorderParameters, hv, hok]
    · simp [hlen]
    · cases i with
      | zero => simp [hv]
      | succ i => simp [hidx i]

lemma wrap64_of_inRange64 (n : Int) (h : inRange64 n) : wrap64 n = n := by
  obtain ⟨h1, h2⟩ := h
  unfold wrap64
  rw [Int.emod_eq_of_lt (by omega) (by omega)]
  omega

/-- The plain (unwrapped) sum of `f i + f (i+1) + ... + f (i+k-1)`. -/
def runningSum (f : Nat → Int) (i : Nat) : Nat → Int
  | 0 => 0
  | k + 1 => f i + runningSum f (i + 1) k

/-- The last-insert id after `k` further executions starting at index `i`,
given the current value `last`. -/
def lastAfter (f : Nat → Int) (i : Nat) (k : Nat) (last : Int) : Int :=
  match k with
  | 0 => last
  | j + 1 => f (i + j)

/-- The affected-rows accumulator of the bulk loop: `k` further additions
with `int64` wrap-around starting at index `i` from value `acc`. -/
def affAccum (f : Nat → Int) (i : Nat) : Nat → Int → Int
  | 0, acc => acc
  | k + 1, acc => affAccum f (i + 1) k (wrap64 (acc + f i))

lemma affAccum_eq_runningSum (k : Nat) (f : Nat → Int) (i : Nat) (acc : Int)
    (h : ∀ m, m ≤ k → inRange64 (acc + runningSum f i m)) :
    affAccum f i k acc = acc + runningSum f i k := by
  induction k generalizing i acc with
  | zero => simp [affAccum, runningSum]
  | succ k ih =>
    have h1 : wrap64 (acc + f i) = acc + f i := by
      have := h 1 (by omega)
      simp only [runningSum] at this
      exact wrap64_of_inRange64 _ (by rw [show acc + f i = acc + (f i + 0) by omega]; exact this)
    simp only [affAccum, runningSum, h1]
    rw [ih (i + 1) (acc + f i) (fun m hm => by
      have := h (m + 1) (by omega)
      simp only [runningSum] at this
      rw [show acc + f i + runningSum f (i + 1) m = acc + (f i + runningSum f (i + 1) m) by omega]
      exact this)]
    omega

lemma lastAfter_step (f : Nat → Int) (i : Nat) (k : Nat) (last : Int) :
    lastAfter f (i + 1) k (f i) = lastAfter f i (k + 1) last := by
  cases k with
  | zero => simp [lastAfter]
  | succ j =>
    simp only [lastAfter]
    rw [show i + 1 + j = i + (j + 1) by omega]

lemma bulkLoop_all_ok (bk : Backend) (phs : List String)
    (ps : List (String → Option GoVal)) (i : Nat) (lastID affRows : Int) (log : List BCall)
    (hb : ∀ pm ∈ ps, ∀ n ∈ phs, (pm n).isSome)
    (he : ∀ j, j < ps.length → bk.bulkExec (i + j) = Except.ok ()) :
    bulkLoop bk phs ps i lastID affRows log =
      (some (Except.ok (formatResultSet (lastAfter bk.bulkLastId i ps.length lastID)
        (affAccum bk.bulkAff i ps.length affRows))),
       log ++ List.replicate ps.length BCall.stmtExec) := by
  induction ps generalizing i lastID affRows log with
  | nil => simp [bulkLoop, lastAfter, affAccum]
  | cons pms rest ih =>
    obtain ⟨vs, hok, -, -⟩ :=
      reorderParameters_ok pms phs (hb pms (List.mem_cons_self pms rest))
    have hei : bk.bulkExec i = Except.ok () := by
      have := he 0 (by simp)
      rwa [Nat.add_zero] at this
    simp only [bulkLoop, hok, hei]
    rw [ih (i + 1) (bk.bulkLastId i) (wrap64 (affRows + bk.bulkAff i)) (log ++ [BCall.stmtExec])
      (fun pm hpm => hb pm (List.mem_cons_of_mem pms hpm))
      (fun j hj => by
        have := he (j + 1) (by simp only [List.length_cons]; omega)
        rwa [show i + (j + 1) = i + 1 + j by omega] at this)]
    rw [lastAfter_step bk.bulkLastId i rest.length lastID]
    simp only [affAccum, List.length_cons, List.replicate_succ, List.append_assoc,
      List.singleton_append]

/-- Claim C4 counterexample: the query made only of a space and a letter
contains no named-parameter token, yet `convertQuery` does not return it
unchanged — it strips the leading space. -/
theorem convertQuery_trims_counterexample :
    hasNamedToken (String.toList " x") = false ∧
    (convertQuery " x").2 = [] ∧
    (convertQuery " x").1 ≠ " x" := by
  refine ⟨rfl, rfl, ?_⟩
  decide

/-- Claim C4 (amended): on a query containing no named-parameter token the
translator returns the whitespace-trimmed query text otherwise unchanged,
together with the empty name list; it is a total function with no error
outcome. -/
theorem convertQuery_no_tokens (q : String)
    (h : hasNamedToken (goTrimSpace q.toList) = false) :
    convertQuery q = (String.mk (goTrimSpace q.toList), []) := by
  unfold convertQuery scanQuery
  rw [scanQueryFuel_no_tokens _ _ (Nat.le_refl _) h]

/-- Witness for `convertQuery_no_tokens` at the query `" SELECT 1 "`. -/
theorem convertQuery_no_tokens_witness :
    hasNamedToken (goTrimSpace (String.toList " SELECT 1 ")) = false ∧
    convertQuery " SELECT 1 " = (String.mk (goTrimSpace (String.toList " SELECT 1 ")), []) :=
  ⟨by decide, convertQuery_no_tokens " SELECT 1 " (by decide)⟩

/-- Claim C5 counterexample: `"a ?"` contains zero named-parameter tokens,
so the claim requires zero `?` characters in the rewritten text, but the
bare trailing marker is preserved and the rewritten text contains one. -/
theorem convertQuery_bare_marker_counterexample :
    specNamedTokens (goTrimSpace (String.toList "a ?")) = [] ∧
    (convertQuery "a ?").2.length = 0 ∧
    countPlaceholders (convertQuery "a ?").1 = 1 := by
  exact ⟨rfl, rfl, rfl⟩

/-- Claim C5 (amended): for every query text, the translator returns the
named-parameter tokens in order of first appearance with duplicates
preserved (so the list has length n for n tokens), and the rewritten text
contains exactly n plus m placeholder characters `?`, where m counts the
`?` occurrences that do not introduce a named token and therefore pass
through unchanged. -/
theorem convertQuery_token_count (q : String) :
    (convertQuery q).2 = specNamedTokens (goTrimSpace q.toList) ∧
    countPlaceholders (convertQuery q).1 =
      (convertQuery q).2.length + bareMarkerCount (goTrimSpace q.toList) := by
  constructor
  · unfold convertQuery scanQuery specNamedTokens
    exact scanQueryFuel_tokens_eq_spec _ _ (Nat.le_refl _)
  · unfold convertQuery countPlaceholders scanQuery
    exact scanQueryFuel_placeholder_count _ _ (Nat.le_refl _)

/-- Claim C6: when the mapping contains every name in the ordered list, the
binder succeeds with a list of the same length whose i-th entry is the
mapping's value at the i-th name; a repeated name is looked up
independently at each occurrence. -/
theorem reorderParameters_complete (params : String → Option GoVal) (names : List String)
    (h : ∀ n ∈ names, (params n).isSome) :
    ∃ vs, reorderParameters params names = Except.ok vs ∧
      vs.length = names.length ∧
      ∀ i : Nat, vs[i]? = (names[i]?).bind params :=
  reorderParameters_ok params names h

/-- Witness for `reorderParameters_complete`: the mapping with `a ↦ 1` and
`b ↦ 2` against the list `[a, b, a]` (note the repeated name). -/
theorem reorderParameters_complete_witness :
    (∀ n ∈ ["a", "b", "a"], (paramsAB n).isSome) ∧
    ∃ vs, reorderParameters paramsAB ["a", "b", "a"] = Except.ok vs ∧
      vs.length = (["a", "b", "a"] : List String).length ∧
      ∀ i : Nat, vs[i]? = ((["a", "b", "a"] : List String)[i]?).bind paramsAB :=
  ⟨by decide, reorderParameters_complete paramsAB ["a", "b", "a"] (by decide)⟩

/-- Claim C7: when some name of the ordered list is absent from the
mapping, the binder fails with the missing-parameter error naming the
leftmost absent name (later missing names are not aggregated) and returns
no value list. -/
theorem reorderParameters_first_missing (params : String → Option GoVal)
    (pre : List String) (n : String) (rest : List String)
    (hpre : ∀ m ∈ pre, (params m).isSome) (hn : params n = none) :
    reorderParameters params (pre ++ n :: rest) = Except.error (missingParamMsg n) := by
  induction pre with
  | nil =>
    simp only [List.nil_append, reorderParameters, hn]
  | cons p pre ih =>
    obtain ⟨v, hv⟩ := Option.isSome_iff_exists.mp (hpre p (List.mem_cons_self p pre))
    simp only [List.cons_append, reorderParameters, hv, List.append_eq,
      ih (fun m hm => hpre m (List.mem_cons_of_mem p hm))]

/-- Witness for `reorderParameters_first_missing`: in `[a, x, y]` against
the mapping holding only `a` and `b`, both `x` and `y` are missing and the
error names `x`, the leftmost. -/
theorem reorderParameters_first_missing_witness :
    (∀ m ∈ ["a"], (paramsAB m).isSome) ∧ paramsAB "x" = none ∧ paramsAB "y" = none ∧
    reorderParameters paramsAB ["a", "x", "y"] = Except.error (missingParamMsg "x") :=
  ⟨by decide, rfl, rfl,
    reorderParameters_first_missing paramsAB ["a"] "x" ["y"] (by decide) rfl⟩

lemma convertQuery_fst_toList (q : String) :
    (convertQuery q).1.toList = (scanQuery (goTrimSpace q.toList)).1 := rfl

/-- Claim C3 counterexample: classification is not total — on the
three-character statement `del` (trimmed form shorter than 6 characters)
`QueryBulk` panics (modelled `none`) instead of returning, and on the
all-blank query `Query` panics once preparation succeeds. -/
theorem classification_panics_counterexample :
    (QueryBulk bkOk "del" []).1 = none ∧
    (Query bkOk " " noParams).1 = none :=
  ⟨rfl, rfl⟩

/-- Claim C3 (amended): the classification step is not total: `QueryBulk`
slices the first 6 characters of the translated query unchecked, so any
query whose trimmed form is shorter than 6 characters panics before any
driver call; `Query` slices the first character unchecked, so any query
whose trimmed form is empty panics as soon as the (empty) statement was
prepared, instead of returning an error. -/
theorem classification_panics (bk : Backend) (q1 q2 : String)
    (ps1 : String → Option GoVal) (ps2 : List (String → Option GoVal))
    (h1 : (goTrimSpace q2.toList).length < 6)
    (h2 : goTrimSpace q1.toList = [])
    (h3 : bk.prepare = Except.ok ()) :
    (QueryBulk bk q2 ps2).1 = none ∧ (Query bk q1 ps1).1 = none := by
  constructor
  · have hle : (convertQuery q2).1.toList.length < 6 := by
      rw [convertQuery_fst_toList]
      exact Nat.lt_of_le_of_lt (scanQueryFuel_length_le _ _ (Nat.le_refl _)) h1
    have hnone : lowerSlice (convertQuery q2).1 6 = none := by
      unfold lowerSlice goSliceTo
      rw [if_neg (by omega)]
      rfl
    simp [QueryBulk, hnone]
  · have hconv : convertQuery q1 = ("", []) := by
      unfold convertQuery scanQuery
      rw [h2]
      rfl
    simp [Query, hconv, reorderParameters, h3, lowerSlice, goSliceTo]

/-- Witness for `classification_panics`: the queries `"del"` and `" "`. -/
theorem classification_panics_witness :
    (goTrimSpace (String.toList "del")).length < 6 ∧
    goTrimSpace (String.toList " ") = [] ∧
    (QueryBulk bkOk "del" [noParams]).1 = none ∧
    (Query bkOk " " noParams).1 = none :=
  ⟨by decide, by decide,
   (classification_panics bkOk " " "del" noParams [noParams] (by decide) (by decide) rfl).1,
   (classification_panics bkOk " " "del" noParams [noParams] (by decide) (by decide) rfl).2⟩

/-- Claim C9: on a query whose translated form begins with `select`
case-insensitively, `QueryBulk` fails with the operation-not-permitted
error and issues no driver call at all. -/
theorem queryBulk_rejects_select (bk : Backend) (q : String)
    (ps : List (String → Option GoVal))
    (h : lowerSlice (convertQuery q).1 6 = some "select") :
    QueryBulk bk q ps = (some (Except.error selectNotAllowedMsg), []) := by
  simp [QueryBulk, h]

/-- Witness for `queryBulk_rejects_select`: the mixed-case query
`Select * FROM t` with an empty mapping sequence. -/
theorem queryBulk_rejects_select_witness :
    lowerSlice (convertQuery "Select * FROM t").1 6 = some "select" ∧
    QueryBulk bkOk "Select * FROM t" [] =
      (some (Except.error selectNotAllowedMsg), []) :=
  ⟨by decide, queryBulk_rejects_select bkOk "Select * FROM t" [] (by decide)⟩

/-- Claim C2 counterexample: the first token of the translated query
`show tables` is `show`, not `select`, yet `Query` executes it as a
row-returning read (the driver log shows the read call), because the code
inspects only the first character `s`. -/
theorem query_classification_counterexample :
    firstTokenOf (convertQuery "show tables").1 = "show" ∧
    firstTokenOf (convertQuery "show tables").1 ≠ "select" ∧
    Query bkOk "show tables" noParams =
      (some (Except.ok []), [BCall.prepare, BCall.stmtQuery]) :=
  ⟨rfl, by decide, rfl⟩

/-- Claim C2 (amended): once binding and preparation succeed, `Query`
classifies by the first character of the translated query,
case-insensitively: exactly when that character is `s` the statement is
executed as a row-returning read (zero matching rows yield the empty
sequence, not a failure); otherwise it is executed as a mutation yielding
the single-row synthetic result set. -/
theorem query_classifies_by_first_char (bk : Backend) (q : String)
    (params : String → Option GoVal)
    (hbind : ∀ n ∈ (convertQuery q).2, (params n).isSome)
    (hprep : bk.prepare = Except.ok ()) :
    (lowerSlice (convertQuery q).1 1 = some "s" →
      (Query bk q params).2 = [BCall.prepare, BCall.stmtQuery] ∧
      (bk.stmtQuery = Except.ok [] → (Query bk q params).1 = some (Except.ok []))) ∧
    (∀ c1, lowerSlice (convertQuery q).1 1 = some c1 → c1 ≠ "s" →
      (Query bk q params).2 = [BCall.prepare, BCall.stmtExec] ∧
      (∀ id aff, bk.stmtExec = Except.ok () → bk.lastInsertId = Except.ok id →
        bk.rowsAffected = Except.ok aff →
        (Query bk q params).1 = some (Except.ok (formatResultSet id aff)))) := by
  obtain ⟨vs, hok, -, -⟩ := reorderParameters_ok params (convertQuery q).2 hbind
  constructor
  · intro hcls
    constructor
    · cases hsq : bk.stmtQuery <;> simp [Query, hok, hprep, hcls, hsq]
    · intro hq0
      simp [Query, hok, hprep, hcls, hq0, prepareDataSet]
  · intro c1 hcls hne
    constructor
    · cases hse : bk.stmtExec <;> cases hli : bk.lastInsertId <;>
        cases hra : bk.rowsAffected <;>
        simp [Query, hok, hprep, hcls, hne, hse, hli, hra]
    · intro id aff hse hli hra
      simp [Query, hok, hprep, hcls, hne, hse, hli, hra]

/-- Witness for `query_classifies_by_first_char`: the query `select 1`
with no parameters against a backend whose read returns zero rows. -/
theorem query_classifies_by_first_char_witness :
    (∀ n ∈ (convertQuery "select 1").2, (noParams n).isSome) ∧
    lowerSlice (convertQuery "select 1").1 1 = some "s" ∧
    (Query bkOk "select 1" noParams).2 = [BCall.prepare, BCall.stmtQuery] ∧
    (Query bkOk "select 1" noParams).1 = some (Except.ok []) :=
  ⟨by decide, by decide,
   ((query_classifies_by_first_char bkOk "select 1" noParams (by decide) rfl).1 (by decide)).1,
   ((query_classifies_by_first_char bkOk "select 1" noParams (by decide) rfl).1 (by decide)).2 rfl⟩

/-- Claim C8: over k parameter mappings against a non-select statement,
with every bind and execution succeeding and no int64 overflow, QueryBulk
returns the single synthetic row whose affected-rows is the sum of the k
per-execution counts and whose last-insert-id comes from the k-th (last)
execution; for k = 0 the row carries 0 and the zero identifier and the
call is not a failure. -/
theorem queryBulk_accumulates (bk : Backend) (q : String)
    (psl : List (String → Option GoVal))
    (hlen : 6 ≤ (convertQuery q).1.toList.length)
    (hsel : lowerSlice (convertQuery q).1 6 ≠ some "select")
    (hprep : bk.prepare = Except.ok ())
    (hbind : ∀ pm ∈ psl, ∀ n ∈ (convertQuery q).2, (pm n).isSome)
    (hexec : ∀ j, j < psl.length → bk.bulkExec j = Except.ok ())
    (hrange : ∀ m, m ≤ psl.length → inRange64 (runningSum bk.bulkAff 0 m)) :
    QueryBulk bk q psl =
      (some (Except.ok (formatResultSet (lastAfter bk.bulkLastId 0 psl.length 0)
        (runningSum bk.bulkAff 0 psl.length))),
       BCall.prepare :: List.replicate psl.length BCall.stmtExec) := by
  obtain ⟨c6, hc6⟩ : ∃ c6, lowerSlice (convertQuery q).1 6 = some c6 := by
    unfold lowerSlice goSliceTo
    rw [if_pos hlen]
    exact ⟨_, rfl⟩
  have hne : c6 ≠ "select" := fun hcon => hsel (hcon ▸ hc6)
  have hloop := bulkLoop_all_ok bk (convertQuery q).2 psl 0 0 0 [BCall.prepare] hbind
    (fun j hj => by rw [Nat.zero_add]; exact hexec j hj)
  have hacc : affAccum bk.bulkAff 0 psl.length 0 = runningSum bk.bulkAff 0 psl.length := by
    rw [affAccum_eq_runningSum psl.length bk.bulkAff 0 0
      (fun m hm => by rw [Int.zero_add]; exact hrange m hm)]
    omega
  simp only [QueryBulk, hc6, hne, if_false, hprep, hloop, hacc]
  simp

/-- Witness for `queryBulk_accumulates`: an update statement over two
mappings, each execution affecting 2 rows with last-insert ids 5 and 6,
yielding the synthetic row with affected-rows 4 and last-insert-id 6. -/
theorem queryBulk_accumulates_witness :
    QueryBulk bkOk "update t set a = ?a where b = ?b" [paramsAB, paramsAB] =
      (some (Except.ok (formatResultSet 6 4)),
       [BCall.prepare, BCall.stmtExec, BCall.stmtExec]) :=
  queryBulk_accumulates bkOk "update t set a = ?a where b = ?b" [paramsAB, paramsAB]
    (by decide) (by decide) rfl
    (by
      intro pm hpm
      have hone : ∀ n ∈ (convertQuery "update t set a = ?a where b = ?b").2,
          (paramsAB n).isSome := by decide
      rcases List.mem_cons.mp hpm with h | h
      · rw [h]; exact hone
      · rcases List.mem_cons.mp h with h2 | h2
        · rw [h2]; exact hone
        · cases h2)
    (fun j _ => rfl)
    (by
      intro m hm
      have hm2 : m ≤ 2 := by simpa using hm
      clear hm
      interval_cases m <;> exact ⟨by decide, by decide⟩)

/-- Claim C1 counterexample: in the nested `Wrap(ctx, f1)` scenario where
`f1` re-wraps with the handed-down context, the single transaction begun
receives two commit attempts — the participant (inner) frame issues one of
its own, and it is the one that takes effect — contradicting the claim
that exactly one commit/rollback is issued, by the outer frame only. -/
theorem nested_wrap_two_finalizes :
    runEvents (nestedRun (Except.ok ())) =
      [TxEvent.begun 0, TxEvent.commit 0 true, TxEvent.commit 0 false] ∧
    (runEvents (nestedRun (Except.ok ()))).countP isFinEv = 2 :=
  ⟨rfl, rfl⟩

/-- Claim C1 (amended): in the nested scenario exactly one physical
transaction is begun, but both frames issue a commit/rollback against it:
the inner (participant) frame's attempt comes first and is the only one
that takes effect, the outer (owner) frame's later attempt fails against
the already-finalized transaction and its outcome is discarded.  So
exactly one EFFECTIVE commit/rollback occurs, issued by the participant,
not by the owner alone. -/
theorem nested_wrap_single_effective_finalize (r : Except String Unit) :
    runEvents (nestedRun r) =
      [TxEvent.begun 0, finEvent r 0 true, finEvent r 0 false] ∧
    (runEvents (nestedRun r)).countP isBeginEv = 1 ∧
    (runEvents (nestedRun r)).countP isFinEv = 2 ∧
    (runEvents (nestedRun r)).countP isEffFinEv = 1 := by
  cases r <;> exact ⟨rfl, rfl, rfl, rfl⟩

/-- Claim C10: when no transaction is bound in the context and beginning a
new one fails, `WrapInTx` returns the begin failure, leaves the
transaction state untouched (no begin, commit or rollback event), and the
result does not depend on the unit-of-work function, which is never run. -/
theorem wrapInTx_begin_failure {α : Type}
    (beginTx : TxState → Except String (Nat × TxState))
    (fn : Option Nat → TxState → Option (Except String α × TxState))
    (s : TxState) (e : String) (h : beginTx s = Except.error e) :
    wrapInTx beginTx none fn s = some (Except.error e, s) := by
  simp [wrapInTx, attachTx, h]

/-- Witness for `wrapInTx_begin_failure`: a backend whose `Begin` fails. -/
theorem wrapInTx_begin_failure_witness :
    failBegin "begin failed" txs0 = Except.error "begin failed" ∧
    wrapInTx (failBegin "begin failed") none (leafWith (Except.ok ())) txs0 =
      some (Except.error "begin failed", txs0) :=
  ⟨rfl, wrapInTx_begin_failure (failBegin "begin failed") (leafWith (Except.ok ())) txs0
    "begin failed" rfl⟩
